import Mathlib

/-!
Verification of the Beerus light client core
(`crates/beerus-core/src/lightclient/beerus.rs`).

The development shallowly embeds the data model and the operations of
`BeerusLightClient`: the `NodeData` cache, the synchronization-loop body,
and the query surface (`starknet_get_storage_at`, `starknet_call_contract`,
`starknet_get_nonce`, `get_block_hash_and_number`,
`starknet_get_transaction_receipt`, `get_block_with_tx_hashes`,
`get_transaction_by_hash`).

Modelling conventions:
* `FieldElement`, `U256`, hashes and addresses are modelled as `Nat`
  (the claims at hand depend only on equality, ordering and decimal
  rendering of these values, none of which overflow in the source).
* The external L1 oracle and L2 provider calls are modelled as explicit
  `Except`-valued inputs (or functions) supplied to each operation: the
  embedded operation describes what the Rust method does with each
  possible response.
* Rust `.unwrap()` on an `Err`/`None` value aborts the task; this is made
  observable through the `Outcome` type, whose `panic` constructor marks
  the aborted executions.
* `BTreeMap<u64, BlockWithTxs>` is modelled as a key-sorted association
  list with `lookup` / `insertSorted` / values via `List.map Prod.snd`,
  matching `BTreeMap::get`, `BTreeMap::insert` and in-order value
  iteration.
-/

namespace Beerus

/-- Embedding of `BlockStatus` of a StarkNet block (starknet-rs model used by the source). -/
inductive BlockStatus where
  | Pending
  | AcceptedOnL2
  | AcceptedOnL1
  | Rejected
deriving DecidableEq, Repr, BEq

/-- Embedding of `InvokeTransaction` — versioned invoke transactions. Each variant keeps
the `transaction_hash` field read by the source plus an opaque `rest`
standing for the remaining fields (ignored by the embedded code). -/
inductive InvokeTransaction where
  | V0 (transaction_hash : Nat) (rest : Nat)
  | V1 (transaction_hash : Nat) (rest : Nat)
deriving DecidableEq, Repr, BEq

/-- Embedding of `Transaction` — tagged union over the transaction kinds, as in
starknet-rs. Each kind carries its `transaction_hash` plus an opaque
`rest` for the fields the embedded code never touches. -/
inductive Transaction where
  | Invoke (tx : InvokeTransaction)
  | L1Handler (transaction_hash : Nat) (rest : Nat)
  | Declare (transaction_hash : Nat) (rest : Nat)
  | Deploy (transaction_hash : Nat) (rest : Nat)
  | DeployAccount (transaction_hash : Nat) (rest : Nat)
deriving DecidableEq, Repr, BEq

/-- Embedding of `BlockWithTxs` — a finalized-variant StarkNet block as supplied by the
L2 provider. -/
structure BlockWithTxs where
  status : BlockStatus
  block_hash : Nat
  parent_hash : Nat
  block_number : Nat
  new_root : Nat
  timestamp : Nat
  sequencer_address : Nat
  transactions : List Transaction
deriving DecidableEq, Repr, BEq

/-- Embedding of `MaybePendingBlockWithTxs` — result of `get_block_with_txs`: either a
finalized-variant block or a pending block (whose distinct payload the
source never inspects, modelled opaquely). -/
inductive MaybePendingBlockWithTxs where
  | Block (block : BlockWithTxs)
  | PendingBlock (rest : Nat)
deriving DecidableEq, Repr, BEq

/-- Embedding of `BlockWithTxHashes` — a block whose transactions are projected to their
hashes, as returned by `get_block_with_tx_hashes`. -/
structure BlockWithTxHashes where
  transactions : List Nat
  status : BlockStatus
  block_hash : Nat
  parent_hash : Nat
  block_number : Nat
  new_root : Nat
  timestamp : Nat
  sequencer_address : Nat
deriving DecidableEq, Repr, BEq

/-- Embedding of `MaybePendingBlockWithTxHashes` (the source only ever constructs the
`Block` variant). -/
inductive MaybePendingBlockWithTxHashes where
  | Block (block : BlockWithTxHashes)
  | PendingBlock (rest : Nat)
deriving DecidableEq, Repr, BEq

/-- Embedding of `BlockHashAndNumber` — result of `get_block_hash_and_number`. -/
structure BlockHashAndNumber where
  block_hash : Nat
  block_number : Nat
deriving DecidableEq, Repr, BEq

/-- Embedding of `FunctionCall` — request built by `starknet_call_contract`. -/
structure FunctionCall where
  contract_address : Nat
  entry_point_selector : Nat
  calldata : List Nat
deriving DecidableEq, Repr, BEq

/-- Embedding of `BlockTag` (starknet-rs `BlockTag`). -/
inductive StarknetBlockTag where
  | Latest
  | Pending
deriving DecidableEq, Repr, BEq

/-- Embedding of `BlockId` — block identifier resolved by `get_block_with_tx_hashes`. -/
inductive BlockId where
  | Number (block_number : Nat)
  | Hash (block_hash : Nat)
  | Tag (tag : StarknetBlockTag)
deriving DecidableEq, Repr, BEq

/-- Observable outcome of running a piece of Rust code that may `.unwrap()`
a failed result: either it produces a value or the task panics. -/
inductive Outcome (α : Type) where
  | ok (a : α)
  | panic (msg : String)
deriving DecidableEq, Repr

/-- Embedding of `BTreeMap::get` on the key-sorted association list model. -/
def lookup (k : Nat) : List (Nat × BlockWithTxs) → Option BlockWithTxs
  | [] => none
  | (k', v) :: rest => if k = k' then some v else lookup k rest

/-- Embedding of `BTreeMap::insert` on the key-sorted association list model: inserts
in key order, replacing an existing binding of the same key. -/
def insertSorted (k : Nat) (v : BlockWithTxs) :
    List (Nat × BlockWithTxs) → List (Nat × BlockWithTxs)
  | [] => [(k, v)]
  | (k', v') :: rest =>
    if k < k' then (k, v) :: (k', v') :: rest
    else if k = k' then (k, v) :: rest
    else (k', v') :: insertSorted k v rest

/-- Largest key of the payload map (0 when empty). -/
def maxKey : List (Nat × BlockWithTxs) → Nat
  | [] => 0
  | p :: rest => max p.1 (maxKey rest)

/-- Embedding of `NodeData` — the shared cache: highest accepted block number, its state
root rendered as a string, and the block payload map. -/
structure NodeData where
  block_number : Nat
  state_root : String
  payload : List (Nat × BlockWithTxs)
deriving DecidableEq, Repr

/-- Embedding of `NodeData::new()` — the empty cache. -/
def NodeData.new : NodeData :=
  { block_number := 0
    state_root := ""
    payload := [] }

/-- Merge step of the sync loop: what the `Ok(block)` arm of the loop body
does to the cache for a fetched `MaybePendingBlockWithTxs`. A
finalized-variant block is accepted iff its number strictly exceeds the
cached number and is positive; a pending block is only logged. -/
def mergeBlock (data : NodeData) (block : MaybePendingBlockWithTxs) : NodeData :=
  match block with
  | .Block block =>
    if block.block_number > data.block_number ∧ 0 < block.block_number then
      { block_number := block.block_number
        state_root := toString block.new_root
        payload := insertSorted block.block_number block data.payload }
    else data
  | .PendingBlock _ => data

/-- One iteration of the sync-loop body, as a function of the three
external responses it consumes: the L1 state-root read, the L1
last-proven-block read (both `.unwrap()`ed by the source, hence `panic`
on `Err`), and the L2 `get_block_with_txs` fetch (whose `Err` is only
logged). -/
def syncIteration (stateRootRes : Except String Nat)
    (lastProvenRes : Except String Nat)
    (fetchRes : Except String MaybePendingBlockWithTxs)
    (data : NodeData) : Outcome NodeData :=
  match stateRootRes with
  | .error e => .panic e
  | .ok _ =>
    match lastProvenRes with
    | .error e => .panic e
    | .ok _ =>
      match fetchRes with
      | .error _ => .ok data
      | .ok block => .ok (mergeBlock data block)

/-- Cache after the sync loop has processed a sequence of successfully
fetched blocks, starting from `data`. -/
def syncRun (blocks : List MaybePendingBlockWithTxs) (data : NodeData) : NodeData :=
  blocks.foldl mergeBlock data

/-- The StarkNet field modulus used by `FieldElement` range checks. -/
def starkPrime : Nat := 2 ^ 251 + 17 * 2 ^ 192 + 1

/-- Value of a hexadecimal digit, `none` for a non-hex character. -/
def hexVal (c : Char) : Option Nat :=
  if '0' ≤ c ∧ c ≤ '9' then some (c.toNat - '0'.toNat)
  else if 'a' ≤ c ∧ c ≤ 'f' then some (c.toNat - 'a'.toNat + 10)
  else if 'A' ≤ c ∧ c ≤ 'F' then some (c.toNat - 'A'.toNat + 10)
  else none

/-- Embedding of `FieldElement::from_hex_be`: an optional `0x` prefix, at most 64 hex
digits, value below the field modulus; `none` models the `Err` results.
(The prefix test is done on the character list so that concrete inputs
evaluate definitionally.) -/
def fromHexBe (s : String) : Option Nat :=
  let cs := s.toList
  let hexChars := if cs.take 2 = ['0', 'x'] then cs.drop 2 else cs
  if 64 < hexChars.length then none
  else
    match hexChars.foldl
        (fun acc c =>
          match acc, hexVal c with
          | some n, some v => some (16 * n + v)
          | _, _ => none)
        (some 0) with
    | none => none
    | some n => if n < starkPrime then some n else none

/-- Embedding of `FieldElement::from_dec_str`: decimal digits only, value below the
field modulus. -/
def fromDecStr (s : String) : Option Nat :=
  if s.toList.length = 0 then none
  else
    match s.toList.foldl
        (fun acc c =>
          match acc with
          | some n => if '0' ≤ c ∧ c ≤ '9' then some (10 * n + (c.toNat - '0'.toNat)) else none
          | none => none)
        (some 0) with
    | none => none
    | some n => if n < starkPrime then some n else none

/-- Embedding of `FieldElement::from_str`: hex when the string starts with `0x`,
decimal otherwise. -/
def fromStr (s : String) : Option Nat :=
  if s.toList.take 2 = ['0', 'x'] then fromHexBe s else fromDecStr s

/-- Embedding of `starknet_get_storage_at`: read the last proven block number from the
L1 oracle (`?` propagates its error), then query the L2 provider's
`get_storage_at` at exactly that block. -/
def starknet_get_storage_at
    (lastProvenRes : Except String Nat)
    (get_storage_at : Nat → Nat → Nat → Except String Nat)
    (contract_address storage_key : Nat) : Except String Nat :=
  match lastProvenRes with
  | .error e => .error e
  | .ok last_block => get_storage_at contract_address storage_key last_block

/-- Embedding of `starknet_call_contract`: build the `FunctionCall`, read the last
proven block number from the L1 oracle (`?` propagates its error), then
call the L2 provider at exactly that block. -/
def starknet_call_contract
    (lastProvenRes : Except String Nat)
    (call : FunctionCall → Nat → Except String (List Nat))
    (contract_address entry_point_selector : Nat)
    (calldata : List Nat) : Except String (List Nat) :=
  let opts : FunctionCall :=
    { contract_address := contract_address
      entry_point_selector := entry_point_selector
      calldata := calldata }
  match lastProvenRes with
  | .error e => .error e
  | .ok last_block => call opts last_block

/-- Embedding of `starknet_get_nonce`: read the last proven block number from the L1
oracle (`?` propagates its error), then query the L2 provider's
`get_nonce` at exactly that block (provider argument order: block first,
then address, as in the source). -/
def starknet_get_nonce
    (lastProvenRes : Except String Nat)
    (get_nonce : Nat → Nat → Except String Nat)
    (address : Nat) : Except String Nat :=
  match lastProvenRes with
  | .error e => .error e
  | .ok last_block => get_nonce last_block address

/-- Embedding of `get_block_hash_and_number`: look the cached `block_number` up in the
payload; return that block's hash and number, or a not-found error. -/
def get_block_hash_and_number (node : NodeData) : Except String BlockHashAndNumber :=
  match lookup node.block_number node.payload with
  | some block =>
    .ok { block_hash := block.block_hash
          block_number := block.block_number }
  | none => .error "Block not found"

/-- Embedding of `starknet_get_transaction_receipt` for a generic receipt type `α`:
read the L1-verified state root (`?` propagates its error), fail when it
differs from the cached `state_root`, then parse `tx_hash` with
`from_hex_be` — `.unwrap()` in the source, hence `panic` on a
non-parsing string — and delegate to the provider (`?` propagates its
error). -/
def starknet_get_transaction_receipt (α : Type)
    (stateRootRes : Except String Nat)
    (get_transaction_receipt : Nat → Except String α)
    (node : NodeData) (tx_hash : String) : Outcome (Except String α) :=
  match stateRootRes with
  | .error e => .ok (.error e)
  | .ok root =>
    if node.state_root ≠ toString root then
      .ok (.error "State root mismatch")
    else
      match fromHexBe tx_hash with
      | none => .panic "called Option::unwrap() on a None value"
      | some tx_hash_felt =>
        match get_transaction_receipt tx_hash_felt with
        | .error e => .ok (.error e)
        | .ok tx_receipt => .ok (.ok tx_receipt)

/-- Embedding of `get_block_with_tx_hashes`: resolve the `BlockId` against the cached
payload (by number, by hash, or by Latest/Pending tag), then project every
transaction of the found block to its `transaction_hash` field. -/
def get_block_with_tx_hashes (node : NodeData) (block_id : BlockId) :
    Except String MaybePendingBlockWithTxHashes :=
  let payload := node.payload
  let blockFound : Except String (Option BlockWithTxs) :=
    match block_id with
    | .Number block_number => .ok (lookup block_number payload)
    | .Hash block_hash =>
      match (payload.map Prod.snd).find? (fun block => block.block_hash == block_hash) with
      | some block => .ok (some block)
      | none => .error "Block with hash not found in the payload."
    | .Tag tag =>
      match tag with
      | .Latest => .ok (lookup node.block_number payload)
      | .Pending =>
        match (payload.map Prod.snd).find? (fun block => block.status == .Pending) with
        | some block => .ok (some block)
        | none => .error "Block with pending status not found in the payload."
  match blockFound with
  | .error e => .error e
  | .ok none => .error "Error while retrieving block."
  | .ok (some block) =>
    .ok (.Block
      { transactions :=
          block.transactions.map (fun transaction =>
            match transaction with
            | .Invoke (.V0 transaction_hash _) => transaction_hash
            | .Invoke (.V1 transaction_hash _) => transaction_hash
            | .L1Handler transaction_hash _ => transaction_hash
            | .Declare transaction_hash _ => transaction_hash
            | .Deploy transaction_hash _ => transaction_hash
            | .DeployAccount transaction_hash _ => transaction_hash)
        status := block.status
        block_hash := block.block_hash
        parent_hash := block.parent_hash
        block_number := block.block_number
        new_root := block.new_root
        timestamp := block.timestamp
        sequencer_address := block.sequencer_address })

/-- Embedding of `get_transaction_by_hash` for a generic transaction type `α`: parse
`tx_hash` with `from_str` (`?` propagates the parse error), call the L2
provider, and `.unwrap()` its result — hence `panic` when the provider
returns a transport error. -/
def get_transaction_by_hash (α : Type)
    (get_tx : Nat → Except String α) (tx_hash : String) : Outcome (Except String α) :=
  match fromStr tx_hash with
  | none => .ok (.error "invalid character")
  | some hash =>
    match get_tx hash with
    | .error e => .panic e
    | .ok transaction => .ok (.ok transaction)

/-- Embedding of `SyncStatus` — tri-state lifecycle marker. -/
inductive SyncStatus where
  | NotSynced
  | Syncing
  | Synced
deriving DecidableEq, Repr, BEq

/-- Observable effect of one `start()` call: final `sync_status`, the
ordered list of values assigned to `sync_status` during the call, whether
each underlying light client's `start` was invoked, whether the sync-loop
task was spawned, and the returned result. -/
structure StartResult where
  status : SyncStatus
  statusTrace : List SyncStatus
  ethStarted : Bool
  starknetStarted : Bool
  loopSpawned : Bool
  result : Except String Unit
deriving Repr

/-- Embedding of `start()`: acts only when `sync_status` is `NotSynced`; starts the
Ethereum then the StarkNet light client (`?` propagates either failure,
leaving the status untouched), assigns `sync_status = Synced` and spawns
the sync loop; on any other status it does nothing and returns `Ok(())`. -/
def start (ethStartRes starknetStartRes : Except String Unit)
    (sync_status : SyncStatus) : StartResult :=
  match sync_status with
  | .NotSynced =>
    match ethStartRes with
    | .error e =>
      { status := .NotSynced, statusTrace := [], ethStarted := true
        starknetStarted := false, loopSpawned := false, result := .error e }
    | .ok _ =>
      match starknetStartRes with
      | .error e =>
        { status := .NotSynced, statusTrace := [], ethStarted := true
          starknetStarted := true, loopSpawned := false, result := .error e }
      | .ok _ =>
        { status := .Synced, statusTrace := [.Synced], ethStarted := true
          starknetStarted := true, loopSpawned := true, result := .ok () }
  | s =>
    { status := s, statusTrace := [], ethStarted := false
      starknetStarted := false, loopSpawned := false, result := .ok () }

/-- The cache invariant of §3 of the design: `block_number` is 0 while the
payload is empty; once the payload is non-empty, `block_number` is its
largest key and `state_root` is the decimal rendering of the `new_root` of
the block stored at that key. -/
def cacheInv (d : NodeData) : Prop :=
  (d.payload = [] → d.block_number = 0)
  ∧ (d.payload ≠ [] →
      d.block_number = maxKey d.payload
      ∧ ∃ b, lookup d.block_number d.payload = some b
          ∧ d.state_root = toString b.new_root)

/-- Property of `Block`-variant inputs with non-`Pending` status (the situation the
design intends for the sync loop's provider). -/
def nonPendingStatus : MaybePendingBlockWithTxs → Bool
  | .Block block => decide (block.status ≠ BlockStatus.Pending)
  | .PendingBlock _ => true

/-- No block stored in the payload carries the `Pending` status. -/
def payloadStatusOk (d : NodeData) : Prop :=
  ∀ q ∈ d.payload, q.2.status ≠ BlockStatus.Pending

/-- Projection of a transaction to its `transaction_hash` field, one case
per transaction kind (the `hash_of` projection of the design notes). -/
def txHash : Transaction → Nat
  | .Invoke (.V0 transaction_hash _) => transaction_hash
  | .Invoke (.V1 transaction_hash _) => transaction_hash
  | .L1Handler transaction_hash _ => transaction_hash
  | .Declare transaction_hash _ => transaction_hash
  | .Deploy transaction_hash _ => transaction_hash
  | .DeployAccount transaction_hash _ => transaction_hash

theorem lookup_insertSorted_self (k : Nat) (v : BlockWithTxs) :
    ∀ l, lookup k (insertSorted k v l) = some v := by
  intro l
  induction l with
  | nil => simp [insertSorted, lookup]
  | cons p rest ih =>
    by_cases h1 : k < p.1
    · simp [insertSorted, lookup, h1]
    · by_cases h2 : k = p.1
      · simp [insertSorted, lookup, h1, h2]
      · simp [insertSorted, lookup, h1, h2, ih]

theorem maxKey_insertSorted (k : Nat) (v : BlockWithTxs) :
    ∀ l, maxKey (insertSorted k v l) = max k (maxKey l) := by
  intro l
  induction l with
  | nil => simp [insertSorted, maxKey]
  | cons p rest ih =>
    obtain ⟨k', v'⟩ := p
    simp only [insertSorted]
    split_ifs with h1 h2
    · simp [maxKey]
    · subst h2
      simp [maxKey]
    · simp [maxKey, ih]
      omega

theorem insertSorted_ne_nil (k : Nat) (v : BlockWithTxs) :
    ∀ l, insertSorted k v l ≠ [] := by
  intro l
  cases l with
  | nil => simp [insertSorted]
  | cons p rest =>
    by_cases h1 : k < p.1
    · simp [insertSorted, h1]
    · by_cases h2 : k = p.1
      · simp [insertSorted, h1, h2]
      · simp [insertSorted, h1, h2]

theorem mem_insertSorted (k : Nat) (v : BlockWithTxs) :
    ∀ l q, q ∈ insertSorted k v l → q = (k, v) ∨ q ∈ l := by
  intro l
  induction l with
  | nil =>
    intro q hq
    simp only [insertSorted, List.mem_singleton] at hq
    exact Or.inl hq
  | cons p rest ih =>
    intro q hq
    obtain ⟨k', v'⟩ := p
    simp only [insertSorted] at hq
    split_ifs at hq with h1 h2
    · rcases List.mem_cons.mp hq with h | h
      · exact Or.inl h
      · exact Or.inr h
    · rcases List.mem_cons.mp hq with h | h
      · exact Or.inl h
      · exact Or.inr (List.mem_cons_of_mem _ h)
    · rcases List.mem_cons.mp hq with h | h
      · exact Or.inr (List.mem_cons.mpr (Or.inl h))
      · rcases ih q h with h' | h'
        · exact Or.inl h'
        · exact Or.inr (List.mem_cons_of_mem _ h')

theorem maxKey_le_block_number (d : NodeData) (h : cacheInv d) :
    maxKey d.payload ≤ d.block_number := by
  by_cases hp : d.payload = []
  · rw [hp, h.1 hp]
    simp [maxKey]
  · exact Nat.le_of_eq ((h.2 hp).1).symm

theorem cacheInv_new : cacheInv NodeData.new := by
  constructor
  · intro _
    rfl
  · intro h
    exact absurd rfl h

theorem cacheInv_mergeBlock (d : NodeData) (mb : MaybePendingBlockWithTxs)
    (h : cacheInv d) : cacheInv (mergeBlock d mb) := by
  cases mb with
  | PendingBlock p => exact h
  | Block b =>
    by_cases hc : b.block_number > d.block_number ∧ 0 < b.block_number
    · have hmax : maxKey d.payload ≤ d.block_number := maxKey_le_block_number d h
      simp only [mergeBlock]
      rw [if_pos hc]
      constructor
      · intro hnil
        exact absurd hnil (insertSorted_ne_nil _ _ _)
      · intro _
        constructor
        · show b.block_number = maxKey (insertSorted b.block_number b d.payload)
          rw [maxKey_insertSorted]
          omega
        · exact ⟨b, lookup_insertSorted_self _ _ _, rfl⟩
    · simp only [mergeBlock]
      rw [if_neg hc]
      exact h

theorem mergeBlock_mono (d : NodeData) (mb : MaybePendingBlockWithTxs) :
    d.block_number ≤ (mergeBlock d mb).block_number := by
  cases mb with
  | PendingBlock p => exact Nat.le_refl _
  | Block b =>
    by_cases hc : b.block_number > d.block_number ∧ 0 < b.block_number
    · simp only [mergeBlock]
      rw [if_pos hc]
      exact Nat.le_of_lt hc.1
    · simp only [mergeBlock]
      rw [if_neg hc]

theorem cacheInv_syncRun (blocks : List MaybePendingBlockWithTxs) :
    ∀ d, cacheInv d → cacheInv (syncRun blocks d) := by
  induction blocks with
  | nil =>
    intro d h
    exact h
  | cons mb rest ih =>
    intro d h
    exact ih (mergeBlock d mb) (cacheInv_mergeBlock d mb h)

theorem syncRun_mono (blocks : List MaybePendingBlockWithTxs) :
    ∀ d, d.block_number ≤ (syncRun blocks d).block_number := by
  induction blocks with
  | nil =>
    intro d
    exact Nat.le_refl _
  | cons mb rest ih =>
    intro d
    exact Nat.le_trans (mergeBlock_mono d mb) (ih (mergeBlock d mb))

theorem payloadStatusOk_mergeBlock (d : NodeData) (mb : MaybePendingBlockWithTxs)
    (hd : payloadStatusOk d) (hmb : nonPendingStatus mb = true) :
    payloadStatusOk (mergeBlock d mb) := by
  cases mb with
  | PendingBlock p => exact hd
  | Block b =>
    by_cases hc : b.block_number > d.block_number ∧ 0 < b.block_number
    · simp only [mergeBlock]
      rw [if_pos hc]
      intro q hq
      rcases mem_insertSorted _ _ _ q hq with h | h
      · subst h
        exact of_decide_eq_true hmb
      · exact hd q h
    · simp only [mergeBlock]
      rw [if_neg hc]
      exact hd

theorem payloadStatusOk_syncRun (blocks : List MaybePendingBlockWithTxs)
    (hblocks : ∀ mb ∈ blocks, nonPendingStatus mb = true) :
    ∀ d, payloadStatusOk d → payloadStatusOk (syncRun blocks d) := by
  induction blocks with
  | nil =>
    intro d hd
    exact hd
  | cons mb rest ih =>
    intro d hd
    exact ih (fun x hx => hblocks x (List.mem_cons_of_mem _ hx)) (mergeBlock d mb)
      (payloadStatusOk_mergeBlock d mb hd (hblocks mb (List.mem_cons_self _ _)))

theorem beq_pending_eq_false (s : BlockStatus) (h : s ≠ BlockStatus.Pending) :
    (s == BlockStatus.Pending) = false := by
  cases s
  · exact absurd rfl h
  all_goals rfl

theorem payloadStatusOk_new : payloadStatusOk NodeData.new := by
  intro q hq
  simp [NodeData.new] at hq

/-- C1: in a sync-loop iteration whose L2 fetch succeeds, the fetched
block is accepted into the cache iff it is a finalized-variant block whose
number strictly exceeds the cached `block_number` and is strictly
positive; on acceptance `block_number`, `state_root` (the block's
`new_root` rendered as a string) and the payload entry are updated exactly
as described, and in every other case the cache is left unchanged. -/
theorem sync_merge_characterization (sr lp : Nat) (d : NodeData)
    (mb : MaybePendingBlockWithTxs) :
    syncIteration (.ok sr) (.ok lp) (.ok mb) d = .ok (mergeBlock d mb)
    ∧ (∀ b, mb = .Block b →
        (b.block_number > d.block_number ∧ 0 < b.block_number →
          mergeBlock d mb =
            { block_number := b.block_number
              state_root := toString b.new_root
              payload := insertSorted b.block_number b d.payload })
        ∧ (¬(b.block_number > d.block_number ∧ 0 < b.block_number) →
          mergeBlock d mb = d))
    ∧ (∀ p, mb = .PendingBlock p → mergeBlock d mb = d) := by
  refine ⟨rfl, ?_, ?_⟩
  · intro b hb
    subst hb
    constructor
    · intro hc
      simp only [mergeBlock]
      rw [if_pos hc]
    · intro hc
      simp only [mergeBlock]
      rw [if_neg hc]
  · intro p hp
    subst hp
    rfl

/-- Concrete finalized block #10 used to witness C1 (the spec scenario). -/
def blockTen : BlockWithTxs :=
  { status := .AcceptedOnL1
    block_hash := 100
    parent_hash := 99
    block_number := 10
    new_root := 7
    timestamp := 1
    sequencer_address := 2
    transactions := [] }

/-- Witness for C1: block #10 is accepted into the empty cache. -/
theorem sync_merge_characterization_witness :
    (blockTen.block_number > NodeData.new.block_number ∧ 0 < blockTen.block_number)
    ∧ mergeBlock NodeData.new (.Block blockTen) =
        { block_number := blockTen.block_number
          state_root := toString blockTen.new_root
          payload := insertSorted blockTen.block_number blockTen NodeData.new.payload } :=
  ⟨by decide,
    ((sync_merge_characterization 0 0 NodeData.new (.Block blockTen)).2.1 blockTen rfl).1
      (by decide)⟩

/-- C2: starting from the empty cache, after any sequence of processed
blocks the cache invariant `cacheInv` holds (block_number is the maximum
payload key once non-empty, 0 while empty, and state_root is the stored
block's new_root rendered as a string), and `block_number` is
non-decreasing along any continuation of the run. -/
theorem cache_invariant_always_holds (blocks more : List MaybePendingBlockWithTxs) :
    cacheInv (syncRun blocks NodeData.new)
    ∧ (syncRun blocks NodeData.new).block_number
        ≤ (syncRun (blocks ++ more) NodeData.new).block_number := by
  refine ⟨cacheInv_syncRun blocks NodeData.new cacheInv_new, ?_⟩
  have happ : syncRun (blocks ++ more) NodeData.new
      = syncRun more (syncRun blocks NodeData.new) := by
    simp [syncRun, List.foldl_append]
  rw [happ]
  exact syncRun_mono more _

/-- C4: `starknet_get_storage_at`, `starknet_call_contract` and
`starknet_get_nonce` pass exactly the oracle-read last proven block number
as the block context of the corresponding L2 provider call and return the
provider's result; an oracle error propagates unchanged (and the provider
is then never consulted: the result is the same for every provider). -/
theorem anchored_queries_use_last_proven_block (lb : Nat) (e : String)
    (storageProv : Nat → Nat → Nat → Except String Nat)
    (callProv callProv' : FunctionCall → Nat → Except String (List Nat))
    (nonceProv : Nat → Nat → Except String Nat)
    (contract_address storage_key entry_point_selector address : Nat)
    (calldata : List Nat) :
    starknet_get_storage_at (.ok lb) storageProv contract_address storage_key
      = storageProv contract_address storage_key lb
    ∧ starknet_get_storage_at (.error e) storageProv contract_address storage_key
      = .error e
    ∧ starknet_call_contract (.ok lb) callProv contract_address entry_point_selector calldata
      = callProv
          { contract_address := contract_address
            entry_point_selector := entry_point_selector
            calldata := calldata } lb
    ∧ starknet_call_contract (.error e) callProv contract_address entry_point_selector calldata
      = .error e
    ∧ starknet_call_contract (.error e) callProv contract_address entry_point_selector calldata
      = starknet_call_contract (.error e) callProv' contract_address entry_point_selector calldata
    ∧ starknet_get_nonce (.ok lb) nonceProv address = nonceProv lb address
    ∧ starknet_get_nonce (.error e) nonceProv address = .error e :=
  ⟨rfl, rfl, rfl, rfl, rfl, rfl, rfl⟩

/-- C5 (divergence witness): the source `.unwrap()`s both per-iteration
oracle reads, so a failed state-root or last-proven-block read panics the
sync task instead of being logged and skipped; the panic outcome is not
the unchanged-cache outcome the claim describes. -/
theorem sync_oracle_failure_panics :
    syncIteration (.error "oracle read failed") (.ok 0)
        (.ok (.PendingBlock 0)) NodeData.new = .panic "oracle read failed"
    ∧ syncIteration (.ok 0) (.error "oracle read failed")
        (.ok (.PendingBlock 0)) NodeData.new = .panic "oracle read failed" :=
  ⟨rfl, rfl⟩

/-- C3 counterexample: with matching state roots but the non-hex
`tx_hash` "xyz", `starknet_get_transaction_receipt` panics on the
`from_hex_be(...).unwrap()` instead of delegating to the provider and
returning its result. -/
theorem receipt_invalid_hash_cex :
    starknet_get_transaction_receipt Unit (.ok 0) (fun _ => .ok ())
        { block_number := 0, state_root := "0", payload := [] } "xyz"
      = .panic "called Option::unwrap() on a None value" := by
  rfl

/-- C3 amended: if the freshly read L1-verified state root differs from
the cached `state_root`, the call fails with the state-root-mismatch error
and the L2 provider is not consulted (the result is the same for every
provider); if the roots are equal and `tx_hash` parses as a field element,
the call delegates to the provider's `get_transaction_receipt` on the
parsed hash and returns its result. -/
theorem receipt_freshness_check (α : Type) (root : Nat)
    (getReceipt getReceipt' : Nat → Except String α)
    (node : NodeData) (tx_hash : String) :
    (node.state_root ≠ toString root →
      starknet_get_transaction_receipt α (.ok root) getReceipt node tx_hash
        = .ok (.error "State root mismatch")
      ∧ starknet_get_transaction_receipt α (.ok root) getReceipt node tx_hash
        = starknet_get_transaction_receipt α (.ok root) getReceipt' node tx_hash)
    ∧ (∀ h : Nat, node.state_root = toString root → fromHexBe tx_hash = some h →
        starknet_get_transaction_receipt α (.ok root) getReceipt node tx_hash
          = .ok (getReceipt h)) := by
  constructor
  · intro hne
    constructor
    · simp only [starknet_get_transaction_receipt]
      rw [if_pos hne]
    · simp only [starknet_get_transaction_receipt]
      rw [if_pos hne, if_pos hne]
  · intro h heq hparse
    simp only [starknet_get_transaction_receipt]
    rw [if_neg (not_not_intro heq), hparse]
    show (match getReceipt h with
          | .error e => Outcome.ok (.error e)
          | .ok tx_receipt => Outcome.ok (.ok tx_receipt)) = Outcome.ok (getReceipt h)
    cases getReceipt h <;> rfl

/-- Witness for the amended C3: with mismatched roots the call fails with
the state-root-mismatch error; with equal roots and the parsing `tx_hash`
"0x1" it delegates to the provider, whose receipt is returned. -/
theorem receipt_freshness_check_witness :
    (("1" : String) ≠ toString (0 : Nat)
      ∧ starknet_get_transaction_receipt Nat (.ok 0) (fun _ => .ok 5)
          { block_number := 0, state_root := "1", payload := [] } "0x1"
        = .ok (.error "State root mismatch"))
    ∧ (("0" : String) = toString (0 : Nat)
      ∧ fromHexBe "0x1" = some 1
      ∧ starknet_get_transaction_receipt Nat (.ok 0) (fun _ => .ok 5)
          { block_number := 0, state_root := "0", payload := [] } "0x1" = .ok (.ok 5)) :=
  ⟨⟨by decide,
      ((receipt_freshness_check Nat 0 (fun _ => .ok 5) (fun _ => .ok 5)
        { block_number := 0, state_root := "1", payload := [] } "0x1").1 (by decide)).1⟩,
    rfl, rfl,
    (receipt_freshness_check Nat 0 (fun _ => .ok 5) (fun _ => .ok 5)
      { block_number := 0, state_root := "0", payload := [] } "0x1").2 1 rfl rfl⟩

/-- C6 counterexample: a successful `start()` from `NotSynced` assigns
`Synced` directly; `sync_status` never takes the value `Syncing`. -/
theorem start_never_syncing_cex :
    (start (.ok ()) (.ok ()) SyncStatus.NotSynced).statusTrace = [SyncStatus.Synced]
    ∧ (start (.ok ()) (.ok ()) SyncStatus.NotSynced).statusTrace.contains
        SyncStatus.Syncing = false
    ∧ (start (.ok ()) (.ok ()) SyncStatus.NotSynced).status = SyncStatus.Synced :=
  ⟨rfl, rfl, rfl⟩

/-- C6 amended: `SyncStatus` changes only via `start()`; a successful
`start()` from `NotSynced` sets the status directly to `Synced` (the
status is never assigned `Syncing`) and spawns the sync loop, while a
`start()` call when the status is already `Syncing` or `Synced` performs
no actions and leaves the status unchanged, returning `Ok(())`. -/
theorem start_lifecycle (ethRes snRes : Except String Unit) :
    ((start (.ok ()) (.ok ()) SyncStatus.NotSynced).status = SyncStatus.Synced
      ∧ (start (.ok ()) (.ok ()) SyncStatus.NotSynced).statusTrace = [SyncStatus.Synced]
      ∧ (start (.ok ()) (.ok ()) SyncStatus.NotSynced).loopSpawned = true
      ∧ (start (.ok ()) (.ok ()) SyncStatus.NotSynced).result = .ok ())
    ∧ ((start ethRes snRes SyncStatus.Syncing).status = SyncStatus.Syncing
      ∧ (start ethRes snRes SyncStatus.Syncing).statusTrace = []
      ∧ (start ethRes snRes SyncStatus.Syncing).ethStarted = false
      ∧ (start ethRes snRes SyncStatus.Syncing).starknetStarted = false
      ∧ (start ethRes snRes SyncStatus.Syncing).loopSpawned = false
      ∧ (start ethRes snRes SyncStatus.Syncing).result = .ok ())
    ∧ ((start ethRes snRes SyncStatus.Synced).status = SyncStatus.Synced
      ∧ (start ethRes snRes SyncStatus.Synced).statusTrace = []
      ∧ (start ethRes snRes SyncStatus.Synced).ethStarted = false
      ∧ (start ethRes snRes SyncStatus.Synced).starknetStarted = false
      ∧ (start ethRes snRes SyncStatus.Synced).loopSpawned = false
      ∧ (start ethRes snRes SyncStatus.Synced).result = .ok ()) :=
  ⟨⟨rfl, rfl, rfl, rfl⟩, ⟨rfl, rfl, rfl, rfl, rfl, rfl⟩, ⟨rfl, rfl, rfl, rfl, rfl, rfl⟩⟩

/-- C7 (divergence witness): `get_transaction_by_hash` `.unwrap()`s the
provider result, so a provider transport error panics instead of being
returned to the caller; and `starknet_get_transaction_receipt` panics on a
`tx_hash` that does not parse as a hash, instead of returning an error. -/
theorem query_errors_panic :
    get_transaction_by_hash Unit (fun _ => .error "transport error") "0x1"
      = .panic "transport error"
    ∧ starknet_get_transaction_receipt Unit (.ok 0) (fun _ => .ok ())
        { block_number := 0, state_root := "0", payload := [] } "nothex"
      = .panic "called Option::unwrap() on a None value" :=
  ⟨rfl, rfl⟩

/-- C8: for a block-number identifier present in the cache payload,
`get_block_with_tx_hashes` succeeds with a block whose transaction list
has the same length as the cached block's, whose i-th entry is the
`transaction_hash` of the cached block's i-th transaction (for every
transaction kind, via the `txHash` projection), and whose scalar fields
equal those of the cached block. -/
theorem get_block_by_number_projects_hashes (node : NodeData) (n : Nat) (b : BlockWithTxs)
    (h : lookup n node.payload = some b) :
    ∃ out : BlockWithTxHashes,
      get_block_with_tx_hashes node (.Number n) = .ok (.Block out)
      ∧ out.transactions.length = b.transactions.length
      ∧ (∀ i : Nat, out.transactions[i]? = (b.transactions[i]?).map txHash)
      ∧ out.status = b.status
      ∧ out.block_hash = b.block_hash
      ∧ out.parent_hash = b.parent_hash
      ∧ out.block_number = b.block_number
      ∧ out.new_root = b.new_root
      ∧ out.timestamp = b.timestamp
      ∧ out.sequencer_address = b.sequencer_address := by
  have hfun : (fun transaction : Transaction =>
      match transaction with
      | .Invoke (.V0 transaction_hash _) => transaction_hash
      | .Invoke (.V1 transaction_hash _) => transaction_hash
      | .L1Handler transaction_hash _ => transaction_hash
      | .Declare transaction_hash _ => transaction_hash
      | .Deploy transaction_hash _ => transaction_hash
      | .DeployAccount transaction_hash _ => transaction_hash) = txHash := by
    funext t
    cases t with
    | Invoke tx => cases tx <;> rfl
    | L1Handler th r => rfl
    | Declare th r => rfl
    | Deploy th r => rfl
    | DeployAccount th r => rfl
  refine ⟨{ transactions := b.transactions.map txHash
            status := b.status
            block_hash := b.block_hash
            parent_hash := b.parent_hash
            block_number := b.block_number
            new_root := b.new_root
            timestamp := b.timestamp
            sequencer_address := b.sequencer_address },
    ?_, ?_, ?_, rfl, rfl, rfl, rfl, rfl, rfl, rfl⟩
  · simp only [get_block_with_tx_hashes, h, hfun]
  · simp
  · intro i
    simp [List.getElem?_map]

/-- Concrete cache entry with one transaction of each kind, witnessing C8. -/
def sixKindsBlock : BlockWithTxs :=
  { status := .AcceptedOnL2
    block_hash := 11
    parent_hash := 10
    block_number := 3
    new_root := 12
    timestamp := 13
    sequencer_address := 14
    transactions :=
      [.Invoke (.V0 1 0), .Invoke (.V1 2 0), .L1Handler 3 0,
       .Declare 4 0, .Deploy 5 0, .DeployAccount 6 0] }

/-- Cache holding `sixKindsBlock` at key 3. -/
def sixKindsNode : NodeData :=
  { block_number := 3
    state_root := toString (12 : Nat)
    payload := [(3, sixKindsBlock)] }

/-- Witness for C8 at the concrete cache `sixKindsNode`. -/
theorem get_block_by_number_projects_hashes_witness :
    lookup 3 sixKindsNode.payload = some sixKindsBlock
    ∧ ∃ out : BlockWithTxHashes,
        get_block_with_tx_hashes sixKindsNode (.Number 3) = .ok (.Block out)
        ∧ out.transactions.length = sixKindsBlock.transactions.length
        ∧ (∀ i : Nat, out.transactions[i]? = (sixKindsBlock.transactions[i]?).map txHash)
        ∧ out.status = sixKindsBlock.status
        ∧ out.block_hash = sixKindsBlock.block_hash
        ∧ out.parent_hash = sixKindsBlock.parent_hash
        ∧ out.block_number = sixKindsBlock.block_number
        ∧ out.new_root = sixKindsBlock.new_root
        ∧ out.timestamp = sixKindsBlock.timestamp
        ∧ out.sequencer_address = sixKindsBlock.sequencer_address :=
  ⟨rfl, get_block_by_number_projects_hashes sixKindsNode 3 sixKindsBlock rfl⟩

/-- Finalized-variant block whose status field is nevertheless `Pending`,
as the untrusted provider may report; used to refute C9. -/
def pendingStatusBlock : BlockWithTxs :=
  { status := .Pending
    block_hash := 21
    parent_hash := 20
    block_number := 1
    new_root := 22
    timestamp := 0
    sequencer_address := 0
    transactions := [] }

/-- C9 counterexample: the sync loop accepts a finalized-variant block
whose status field is `Pending` (it only discriminates on the
`MaybePendingBlockWithTxs` variant, not on the status field), after which
the Pending-tag query on this reachable cache state SUCCEEDS instead of
failing. -/
theorem pending_tag_query_succeeds_cex :
    get_block_with_tx_hashes (syncRun [.Block pendingStatusBlock] NodeData.new)
        (.Tag .Pending)
      = .ok (.Block
          { transactions := []
            status := .Pending
            block_hash := 21
            parent_hash := 20
            block_number := 1
            new_root := 22
            timestamp := 0
            sequencer_address := 0 }) := by
  rfl

/-- C9 amended: for every cache state reachable by the synchronization
loop from the empty cache via fetched blocks whose finalized-variant
members never carry the `Pending` status, `get_block_with_tx_hashes`
called with the Pending tag fails with the pending-block-not-found error. -/
theorem pending_tag_query_fails (blocks : List MaybePendingBlockWithTxs)
    (h : ∀ mb ∈ blocks, nonPendingStatus mb = true) :
    get_block_with_tx_hashes (syncRun blocks NodeData.new) (.Tag .Pending)
      = .error "Block with pending status not found in the payload." := by
  have hok : payloadStatusOk (syncRun blocks NodeData.new) :=
    payloadStatusOk_syncRun blocks h NodeData.new payloadStatusOk_new
  have hfind : (((syncRun blocks NodeData.new).payload.map Prod.snd).find?
      (fun block => block.status == BlockStatus.Pending)) = none := by
    rw [List.find?_eq_none]
    intro x hx
    rcases List.mem_map.mp hx with ⟨q, hq, rfl⟩
    simp [beq_pending_eq_false _ (hok q hq)]
  simp only [get_block_with_tx_hashes, hfind]

/-- Ordinary accepted block (status `AcceptedOnL2`) for the C9 witness. -/
def acceptedBlock : BlockWithTxs :=
  { status := .AcceptedOnL2
    block_hash := 41
    parent_hash := 40
    block_number := 4
    new_root := 42
    timestamp := 0
    sequencer_address := 0
    transactions := [] }

/-- Witness for the amended C9: after syncing one ordinary accepted
block, the Pending-tag query fails with the pending-block-not-found
error. -/
theorem pending_tag_query_fails_witness :
    (∀ mb ∈ [MaybePendingBlockWithTxs.Block acceptedBlock], nonPendingStatus mb = true)
    ∧ get_block_with_tx_hashes
        (syncRun [.Block acceptedBlock] NodeData.new) (.Tag .Pending)
      = .error "Block with pending status not found in the payload." :=
  have hall : ∀ mb ∈ [MaybePendingBlockWithTxs.Block acceptedBlock],
      nonPendingStatus mb = true := by
    intro mb hmb
    rw [List.mem_singleton] at hmb
    subst hmb
    rfl
  ⟨hall, pending_tag_query_fails [.Block acceptedBlock] hall⟩

/-- C10: `get_block_hash_and_number` returns the hash and number of the
payload entry stored at the cached `block_number`, fails with the
not-found error when no such entry exists, and in particular always fails
with the not-found error on the empty cache. -/
theorem block_hash_and_number_spec (node : NodeData) :
    (∀ b, lookup node.block_number node.payload = some b →
      get_block_hash_and_number node
        = .ok { block_hash := b.block_hash, block_number := b.block_number })
    ∧ (lookup node.block_number node.payload = none →
      get_block_hash_and_number node = .error "Block not found")
    ∧ get_block_hash_and_number NodeData.new = .error "Block not found" := by
  refine ⟨?_, ?_, rfl⟩
  · intro b hb
    simp [get_block_hash_and_number, hb]
  · intro hb
    simp [get_block_hash_and_number, hb]

/-- Cache entry at key 2 for the C10 witness. -/
def hashNumBlock : BlockWithTxs :=
  { status := .AcceptedOnL1
    block_hash := 31
    parent_hash := 30
    block_number := 2
    new_root := 32
    timestamp := 0
    sequencer_address := 0
    transactions := [] }

/-- Cache holding `hashNumBlock` at its number. -/
def hashNumNode : NodeData :=
  { block_number := 2
    state_root := toString (32 : Nat)
    payload := [(2, hashNumBlock)] }

/-- Witness for C10: the populated cache answers with the stored hash and
number, and the empty cache fails with the not-found error. -/
theorem block_hash_and_number_spec_witness :
    lookup hashNumNode.block_number hashNumNode.payload = some hashNumBlock
    ∧ get_block_hash_and_number hashNumNode
        = .ok { block_hash := 31, block_number := 2 }
    ∧ get_block_hash_and_number NodeData.new = .error "Block not found" :=
  ⟨rfl, (block_hash_and_number_spec hashNumNode).1 hashNumBlock rfl,
    (block_hash_and_number_spec NodeData.new).2.2⟩

end Beerus
